import Mathlib

/-!
# Todo REST service: in-memory variant (`Project 1/Todo.go`) and persistent
variant (`Project 1/main.go`)

The handlers of both programs are embedded as pure functions from the store
state and the request to a response and the next store state.

* The HTTP framework is reduced to what the handlers use of it: the parsed
  request body, the `:id` path parameter, and `c.Status(n).JSON(v)`.
* Go's `int` is embedded as `Int`. The only arithmetic in the program is
  `len(todos) + 1`, and a slice length is far below `2^63 - 1`, so no
  wrap-around can occur.
* The slice `todos` is embedded as a `List Todo`; only the variable `todos`
  itself is ever read, so the sharing of backing arrays is not observable.
-/

namespace TodoApi

/-! ## Values shared by both programs -/

/-- A value placed in a response: a text, a flag, a number, one record or a
sequence of records. -/
inductive JVal (α : Type) where
  | str (s : String)
  | bool (b : Bool)
  | num (n : Nat)
  | item (a : α)
  | items (l : List α)
deriving DecidableEq, Repr

/-- The argument of `c.JSON(...)`: either a value, or a `fiber.Map` literal
given by its key/value pairs in source order. -/
inductive JBody (α : Type) where
  | val (v : JVal α)
  | map (kvs : List (String × JVal α))
deriving DecidableEq, Repr

/-- What a handler hands back to the framework: `c.Status(s).JSON(b)`, or the
error value it returned (`return err`). -/
inductive Response (α : Type) where
  | json (status : Nat) (body : JBody α)
  | error
deriving DecidableEq, Repr

/-- Status code of a response, when the handler produced one. -/
def Response.status? {α : Type} : Response α → Option Nat
  | .json s _ => some s
  | .error => none

/-- A JSON error object: a map holding a text under the key `error` or `Error`. -/
def JBody.isErrorObject {α : Type} : JBody α → Bool
  | .map kvs => kvs.any fun kv =>
      (kv.1 == "error" || kv.1 == "Error") &&
        (match kv.2 with
          | .str _ => true
          | _ => false)
  | .val _ => false

/-- The response is a JSON error object (with any status). -/
def Response.isErrorObject {α : Type} : Response α → Bool
  | .json _ b => b.isErrorObject
  | .error => false

/-- The index a `for i, x := range xs` loop stops at when it leaves at the
first element passing the test `p`; `none` when the loop runs to its end. -/
def firstIndex {α : Type} (p : α → Bool) : List α → Option Nat
  | [] => none
  | a :: as => if p a then some 0 else (firstIndex p as).map (· + 1)

/-! ## `fmt.Sprint` on an `int` -/

/-- Decimal digits of `n`, most significant first; `fuel` bounds the number of
digits produced. -/
def decDigits : Nat → Nat → List Char
  | 0, _ => []
  | fuel + 1, n =>
    if n < 10 then [Char.ofNat (48 + n)]
    else decDigits fuel (n / 10) ++ [Char.ofNat (48 + n % 10)]

/-- The result of `fmt.Sprint(n)` for an `int`: base-10 digits without leading
zeros, preceded by `-` when `n` is negative. -/
def Sprint (n : Int) : String :=
  match n with
  | Int.ofNat m => String.mk (decDigits (m + 1) m)
  | Int.negSucc m => String.mk ('-' :: decDigits (m + 2) (m + 1))

/-- The number written by a list of decimal digits. -/
def decValue (cs : List Char) : Nat :=
  cs.foldl (fun acc c => 10 * acc + (c.toNat - 48)) 0

/-! ## The in-memory program (`Todo.go`) -/

/-- The record type `Todo` of `Todo.go`. -/
structure Todo where
  ID : Int
  Completed : Bool
  Body : String
deriving DecidableEq, Repr

/-- A JSON object sent as the body of a create request, before it is decoded
into a `Todo`: each of the three known keys may be absent. -/
structure Payload where
  id : Option Int
  completed : Option Bool
  body : Option String
deriving DecidableEq, Repr

/-- The result of `c.BodyParser(todo)` on a fresh `&Todo{}`: keys that are
present are stored, absent keys leave the zero value. -/
def BodyParser (p : Payload) : Todo :=
  { ID := p.id.getD 0, Completed := p.completed.getD false, Body := p.body.getD "" }

namespace todo_main

/-- The loop header `for i, todo := range todos` with the test
`fmt.Sprint(todo.ID) == id`: the first index whose record matches. -/
def rangeFind (todos : List Todo) (id : String) : Option Nat :=
  firstIndex (fun todo => Sprint todo.ID == id) todos

/-- Handler of `GET /`. -/
def root (todos : List Todo) : Response Todo × List Todo :=
  (.json 200 (.map [("msg", .str "Hello World")]), todos)

/-- Handler of `POST /api/todo`. The argument `body` is the request body as
the parser sees it: `none` when it cannot be decoded into a `Todo`. -/
def postTodo (todos : List Todo) (body : Option Payload) : Response Todo × List Todo :=
  match body with
  | none => (.error, todos)
  | some p =>
    let todo := BodyParser p
    if todo.Body = "" then
      (.json 400 (.map [("Error", .str "Todo has a Error")]), todos)
    else
      let todo := { todo with ID := (todos.length : Int) + 1 }
      (.json 201 (.val (.item todo)), todos ++ [todo])

/-- Handler of `GET /api/todos`. -/
def getTodos (todos : List Todo) : Response Todo × List Todo :=
  (.json 200 (.val (.items todos)), todos)

/-- Handler of `PATCH /api/todo/:id`. The request body is never read. -/
def patchTodo (todos : List Todo) (id : String) (_body : String) :
    Response Todo × List Todo :=
  match rangeFind todos id with
  | some i =>
    let todos := todos.modify (fun t => { t with Completed := true }) i
    match todos.get? i with
    | some t => (.json 200 (.val (.item t)), todos)
    | none => (.error, todos)
  | none => (.json 400 (.map [("error", .str "Todo Not found")]), todos)

/-- Handler of `DELETE /api/todo/:id`. -/
def deleteTodo (todos : List Todo) (id : String) : Response Todo × List Todo :=
  match rangeFind todos id with
  | some i => (.json 200 (.map [("success", .bool true)]), todos.take i ++ todos.drop (i + 1))
  | none => (.json 400 (.map [("error", .str "Todo not found")]), todos)

/-- A request to the in-memory service. -/
inductive Request where
  | root
  | create (body : Option Payload)
  | list
  | patch (id : String) (body : String)
  | delete (id : String)
deriving DecidableEq, Repr

/-- Dispatch of a request to its handler. -/
def handle (todos : List Todo) : Request → Response Todo × List Todo
  | .root => root todos
  | .create body => postTodo todos body
  | .list => getTodos todos
  | .patch id body => patchTodo todos id body
  | .delete id => deleteTodo todos id

/-- The store after serving the requests `reqs` in order, starting from `todos`. -/
def run (todos : List Todo) : List Request → List Todo
  | [] => todos
  | r :: rs => run (handle todos r).2 rs

/-- The responses to the requests `reqs` served in order, starting from `todos`. -/
def responses (todos : List Todo) : List Request → List (Response Todo)
  | [] => []
  | r :: rs => (handle todos r).1 :: responses (handle todos r).2 rs

/-- The program starts with `todos := []Todo{}`. -/
def init : List Todo := []

/-- The id a response reports as newly created: the record of a 201 answer. -/
def createdId? : Response Todo → Option Int
  | .json s (.val (.item t)) => if s = 201 then some t.ID else none
  | _ => none

/-- The ids returned by the successful creates among `rs`, in order. -/
def createdIds (rs : List (Response Todo)) : List Int :=
  rs.filterMap createdId?

/-- No delete request among `reqs`, served in order from `todos`, is answered
with 200. -/
def noDeleteSucceeds (todos : List Todo) : List Request → Bool
  | [] => true
  | r :: rs =>
    (match r with
      | .delete _ => (handle todos r).1.status? != some 200
      | _ => true) && noDeleteSucceeds (handle todos r).2 rs

/-- The ids of `todos` stand in relation `R` to `k, k + 1, k + 2, ...`,
position by position. -/
def idsFrom (R : Int → Int → Prop) : Int → List Todo → Prop
  | _, [] => True
  | k, t :: ts => R k t.ID ∧ idsFrom R (k + 1) ts

end todo_main


/-! ## The persistent program (`main.go`)

The document store and its driver are outside the repository. They are
represented by a list of documents and by the five driver calls the handlers
issue; every call is recorded in `Db.calls`, and the environment decides which
calls fail (connection loss, timeout). -/

/-- A `primitive.ObjectID`: twelve bytes, read as one number. -/
abbrev ObjectID := Nat

/-- The zero identifier `primitive.NilObjectID`. -/
def NilObjectID : ObjectID := 0

/-- Value of one hexadecimal digit. -/
def hexVal (c : Char) : Option Nat :=
  if '0' ≤ c ∧ c ≤ '9' then some (c.toNat - 48)
  else if 'a' ≤ c ∧ c ≤ 'f' then some (c.toNat - 87)
  else if 'A' ≤ c ∧ c ≤ 'F' then some (c.toNat - 55)
  else none

/-- The library call `primitive.ObjectIDFromHex`: a text of exactly 24
hexadecimal digits denotes an identifier, anything else is an error. -/
def ObjectIDFromHex (s : String) : Option ObjectID :=
  if s.utf8ByteSize ≠ 24 then none
  else s.data.foldlM (fun acc c => (hexVal c).map (16 * acc + ·)) 0

/-- The method `ObjectID.Hex`: the twelve bytes as 24 lower-case hexadecimal
digits. -/
def ObjectID.Hex (o : ObjectID) : String :=
  String.mk ((List.range 24).map fun i =>
    let d := o / 16 ^ (23 - i) % 16
    if d < 10 then Char.ofNat (48 + d) else Char.ofNat (87 + d))

/-- A BSON value as far as the service meets them. A number stands for a BSON
double or integer: a JSON number of a request body is decoded to `float64` and
stored as a double. -/
inductive BsonVal where
  | bool (b : Bool)
  | str (s : String)
  | num (n : Rat)
  | oid (o : ObjectID)
  | null
deriving DecidableEq, Repr

/-- The driver's decoder for a struct field of type `primitive.ObjectID`,
applied to the value found under the field's key (`none`: key absent): an
ObjectID is taken as it is; a string is read as 24 hexadecimal digits or, when
that fails, as the twelve bytes themselves; null and an absent key leave the
zero value; any other type is a decode error. -/
def decodeObjectID : Option BsonVal → Option ObjectID
  | none => some NilObjectID
  | some (.oid o) => some o
  | some (.str s) =>
    match ObjectIDFromHex s with
    | some o => some o
    | none =>
      if s.utf8ByteSize ≠ 12 then none
      else some (s.data.foldl
        (fun acc c => (String.utf8EncodeChar c).foldl (fun a b => 256 * a + b.toNat) acc) 0)
  | some .null => some NilObjectID
  | some _ => none

/-- The driver's decoder for a struct field of type `bool`: a boolean is taken
as it is, a number counts as `true` exactly when it is not zero, null and an
absent key leave `false`; any other type is a decode error. -/
def decodeBool : Option BsonVal → Option Bool
  | none => some false
  | some (.bool b) => some b
  | some (.num n) => some (n != 0)
  | some .null => some false
  | some _ => none

/-- The driver's decoder for a struct field of type `string`: a string is
taken as it is, an ObjectID is rendered in hexadecimal, null and an absent key
leave the empty string; any other type is a decode error. -/
def decodeString : Option BsonVal → Option String
  | none => some ""
  | some (.str s) => some s
  | some (.oid o) => some o.Hex
  | some .null => some ""
  | some _ => none

/-- A `bson.M` or a stored document: keys with their values. -/
abbrev Doc := List (String × BsonVal)

/-- Assignment of one key of a document: an existing key gets the new value in
place, a new key is added at the end. -/
def Doc.setKey : Doc → String → BsonVal → Doc
  | [], k, v => [(k, v)]
  | (k', v') :: d, k, v => if k' = k then (k, v) :: d else (k', v') :: Doc.setKey d k v

/-- The update operator `$set`: every submitted key is assigned, in turn. -/
def Doc.applySet (d : Doc) (fields : Doc) : Doc :=
  fields.foldl (fun acc kv => Doc.setKey acc kv.1 kv.2) d

/-- Whether the document is stored under the identifier `o`. -/
def Doc.hasId (d : Doc) (o : ObjectID) : Bool :=
  d.lookup "_id" == some (BsonVal.oid o)

/-- Whether the document is a completed Todo: its `completed` field decodes
to `true`. -/
def Doc.completed (d : Doc) : Bool :=
  decodeBool (d.lookup "completed") == some true

/-- The record type `Todo_mongoo` of `main.go`. -/
structure Todo_mongoo where
  ID : ObjectID
  Completed : Bool
  Body : String
deriving DecidableEq, Repr

/-- A JSON object sent as the body of a create request to the persistent
program, before it is decoded into a `Todo_mongoo`. -/
structure Payload_mongoo where
  id : Option ObjectID
  completed : Option Bool
  body : Option String
deriving DecidableEq, Repr

/-- The result of `c.BodyParser(&todo)` on a zero `Todo_mongoo`. -/
def BodyParser_mongoo (p : Payload_mongoo) : Todo_mongoo :=
  { ID := p.id.getD NilObjectID, Completed := p.completed.getD false, Body := p.body.getD "" }

/-- BSON encoding of a `Todo_mongoo` after its struct tags
`_id,omitempty`, `completed`, `body`. -/
def Todo_mongoo.marshal (t : Todo_mongoo) : Doc :=
  (if t.ID = NilObjectID then [] else [("_id", BsonVal.oid t.ID)]) ++
    [("completed", BsonVal.bool t.Completed), ("body", BsonVal.str t.Body)]

/-- BSON decoding of a stored document into a `Todo_mongoo` after its struct
tags: each field is decoded from the value under its key, keys the struct does
not have are skipped, and one field that fails to decode fails the whole
document. -/
def Todo_mongoo.unmarshal (d : Doc) : Option Todo_mongoo :=
  match decodeObjectID (d.lookup "_id"), decodeBool (d.lookup "completed"),
      decodeString (d.lookup "body") with
  | some i, some c, some b => some { ID := i, Completed := c, Body := b }
  | _, _, _ => none

/-- One call to the driver, as issued by a handler. -/
inductive Call where
  | Find
  | InsertOne (doc : Doc)
  | UpdateOne (id : ObjectID) (set : Doc)
  | FindOne (id : ObjectID)
  | DeleteOne (id : ObjectID)
deriving DecidableEq, Repr

/-- The collection `GO.todos` together with the calls issued so far. -/
structure Db where
  docs : List Doc
  calls : List Call
deriving DecidableEq, Repr

/-- What a handler takes from its surroundings: the value of
`primitive.NewObjectID()`, the identifier the driver generates for a document
sent without `_id`, and which of the handler's driver calls (numbered from 0)
fail. -/
structure Env where
  newId : ObjectID
  driverId : ObjectID
  fails : Nat → Bool

namespace Db

/-- Position of the first document stored under `o`. -/
def position (docs : List Doc) (o : ObjectID) : Option Nat :=
  firstIndex (fun d => d.hasId o) docs

/-- The call `collection.Find(ctx, bson.M{})` followed by `cursor.All`: every
document, in store order. -/
def Find (db : Db) (failed : Bool) : Option (List Doc) × Db :=
  let db := { db with calls := db.calls ++ [Call.Find] }
  if failed then (none, db) else (some db.docs, db)

/-- The call `collection.InsertOne(ctx, doc)`: a document without `_id` gets
the driver's identifier in front; an identifier already in use is rejected;
the result is the inserted identifier. -/
def InsertOne (db : Db) (doc : Doc) (driverId : ObjectID) (failed : Bool) :
    Option BsonVal × Db :=
  let db := { db with calls := db.calls ++ [Call.InsertOne doc] }
  if failed then (none, db)
  else
    let doc : Doc :=
      match doc.lookup "_id" with
      | some _ => doc
      | none => ("_id", BsonVal.oid driverId) :: doc
    match doc.lookup "_id" with
    | some v =>
      if db.docs.any (fun d => d.lookup "_id" == some v) then (none, db)
      else (some v, { db with docs := db.docs ++ [doc] })
    | none => (none, db)

/-- The call `collection.UpdateOne(ctx, bson.M{"_id": o}, bson.M{"$set": set})`:
the first document stored under `o` gets the submitted keys assigned; an
assignment that would change `_id` is rejected. The result is `MatchedCount`. -/
def UpdateOne (db : Db) (o : ObjectID) (set : Doc) (failed : Bool) : Option Nat × Db :=
  let db := { db with calls := db.calls ++ [Call.UpdateOne o set] }
  if failed then (none, db)
  else
    match position db.docs o with
    | none => (some 0, db)
    | some i =>
      if set.any (fun kv => kv.1 == "_id" && kv.2 != BsonVal.oid o) then (none, db)
      else (some 1, { db with docs := db.docs.modify (fun d => d.applySet set) i })

/-- The call `collection.FindOne(ctx, bson.M{"_id": o})`: the first document
stored under `o`, if any. -/
def FindOne (db : Db) (o : ObjectID) (failed : Bool) : Option Doc × Db :=
  let db := { db with calls := db.calls ++ [Call.FindOne o] }
  if failed then (none, db)
  else
    match position db.docs o with
    | none => (none, db)
    | some i => (db.docs.get? i, db)

/-- The call `collection.DeleteOne(ctx, bson.M{"_id": o})`: the first document
stored under `o` is removed. The result is `DeletedCount`. -/
def DeleteOne (db : Db) (o : ObjectID) (failed : Bool) : Option Nat × Db :=
  let db := { db with calls := db.calls ++ [Call.DeleteOne o] }
  if failed then (none, db)
  else
    match position db.docs o with
    | none => (some 0, db)
    | some i => (some 1, { db with docs := db.docs.take i ++ db.docs.drop (i + 1) })

end Db

/-- The body `fiber.Map{"error": msg}`. -/
def errorMap (msg : String) : JBody Todo_mongoo := .map [("error", .str msg)]

/-- Handler `getTodos` of `GET /api/todos`. -/
def getTodos (db : Db) (env : Env) : Response Todo_mongoo × Db :=
  match db.Find (env.fails 0) with
  | (none, db) => (.json 500 (errorMap "Failed to fetch todos"), db)
  | (some docs, db) =>
    match docs.mapM Todo_mongoo.unmarshal with
    | none => (.json 500 (errorMap "Failed to decode todos"), db)
    | some todos =>
      (.json 200 (.map [("success", .bool true), ("data", .items todos),
        ("count", .num todos.length)]), db)

/-- Handler `createTodo` of `POST /api/todos`. The argument `body` is the
request body as the parser sees it: `none` when it cannot be decoded. -/
def createTodo (db : Db) (body : Option Payload_mongoo) (env : Env) :
    Response Todo_mongoo × Db :=
  match body with
  | none => (.json 400 (errorMap "Invalid request body"), db)
  | some p =>
    let todo := BodyParser_mongoo p
    if todo.Body = "" then (.json 400 (errorMap "Todo body is required"), db)
    else
      let todo := { todo with ID := env.newId }
      let todo := if todo.Completed = false then { todo with Completed := false } else todo
      match db.InsertOne todo.marshal env.driverId (env.fails 0) with
      | (some (.oid inserted), db) =>
        let todo := { todo with ID := inserted }
        (.json 201 (.map [("success", .bool true), ("data", .item todo)]), db)
      | (_, db) => (.json 500 (errorMap "Failed to create todo"), db)

/-- Handler `updateTodo` of `PATCH /api/todos/:id`. The argument `body` is the
request body decoded as a `bson.M`: `none` when it cannot be decoded. -/
def updateTodo (db : Db) (idParam : String) (body : Option Doc) (env : Env) :
    Response Todo_mongoo × Db :=
  match ObjectIDFromHex idParam with
  | none => (.json 400 (errorMap "Invalid todo ID"), db)
  | some objectID =>
    match body with
    | none => (.json 400 (errorMap "Invalid request body"), db)
    | some updateData =>
      match db.UpdateOne objectID updateData (env.fails 0) with
      | (none, db) => (.json 500 (errorMap "Failed to update todo"), db)
      | (some matched, db) =>
        if matched = 0 then (.json 404 (errorMap "Todo not found"), db)
        else
          match db.FindOne objectID (env.fails 1) with
          | (some d, db) =>
            match Todo_mongoo.unmarshal d with
            | some updatedTodo =>
              (.json 200 (.map [("success", .bool true), ("data", .item updatedTodo)]), db)
            | none => (.json 500 (errorMap "Failed to fetch updated todo"), db)
          | (none, db) => (.json 500 (errorMap "Failed to fetch updated todo"), db)

/-- Handler `deleteTodo` of `DELETE /api/todos/:id`. -/
def deleteTodo (db : Db) (idParam : String) (env : Env) : Response Todo_mongoo × Db :=
  match ObjectIDFromHex idParam with
  | none => (.json 400 (errorMap "Invalid todo ID"), db)
  | some objectID =>
    match db.DeleteOne objectID (env.fails 0) with
    | (none, db) => (.json 500 (errorMap "Failed to delete todo"), db)
    | (some deleted, db) =>
      if deleted = 0 then (.json 404 (errorMap "Todo not found"), db)
      else
        (.json 200 (.map [("success", .bool true),
          ("message", .str "Todo deleted successfully")]), db)

/-- A request to the persistent service. -/
inductive Request where
  | root
  | list
  | create (body : Option Payload_mongoo)
  | update (idParam : String) (body : Option Doc)
  | delete (idParam : String)
deriving DecidableEq, Repr

/-- Dispatch of a request to its handler, as registered in `main`. -/
def handle (db : Db) (env : Env) : Request → Response Todo_mongoo × Db
  | .root =>
    (.json 200 (.map [("message", .str "Todo API is running!"), ("version", .str "1.0.0")]), db)
  | .list => getTodos db env
  | .create body => createTodo db body env
  | .update idParam body => updateTodo db idParam body env
  | .delete idParam => deleteTodo db idParam env

/-! ## Properties of a step -/

/-- No record of `s` that is still present in `s2` went from completed back to
incomplete. The records of `s` are traced into `s2` in one of three ways: `s2`
has the same records position by position (same `key`, and `done` is kept
where it held), or `s2` is `s` with records removed, or `s2` is `s` with
records added at the end. -/
def KeepsCompleted {α κ : Type} (key : α → κ) (done : α → Bool) (s s2 : List α) : Prop :=
  List.Forall₂ (fun a b => key a = key b ∧ (done a = true → done b = true)) s s2 ∨
    List.Sublist s2 s ∨ ∃ added, s2 = s ++ added

/-! ## Auxiliary facts -/

theorem firstIndex_eq_none {α : Type} (p : α → Bool) (l : List α) :
    firstIndex p l = none ↔ ∀ a ∈ l, p a = false := by
  induction l with
  | nil => simp [firstIndex]
  | cons a as ih =>
    by_cases h : p a = true
    · simp [firstIndex, h]
    · simp [firstIndex, h, ih]

theorem firstIndex_eq_some {α : Type} (p : α → Bool) (l : List α) (i : Nat)
    (h : firstIndex p l = some i) :
    ∃ pre a post, l = pre ++ a :: post ∧ pre.length = i ∧ p a = true ∧
      ∀ x ∈ pre, p x = false := by
  induction l generalizing i with
  | nil => simp [firstIndex] at h
  | cons a as ih =>
    by_cases ha : p a = true
    · simp [firstIndex, ha] at h
      exact ⟨[], a, as, by simp, by simpa using h, ha, by simp⟩
    · simp [firstIndex, ha] at h
      obtain ⟨j, hj, rfl⟩ := h
      obtain ⟨pre, b, post, hl, hlen, hb, hpre⟩ := ih j hj
      refine ⟨a :: pre, b, post, by simp [hl], by simp [hlen], hb, ?_⟩
      intro x hx
      rcases List.mem_cons.mp hx with rfl | hx
      · simpa using ha
      · exact hpre x hx

theorem firstIndex_split {α : Type} (p : α → Bool) (pre : List α) (a : α) (post : List α)
    (ha : p a = true) (hpre : ∀ x ∈ pre, p x = false) :
    firstIndex p (pre ++ a :: post) = some pre.length := by
  induction pre with
  | nil => simp [firstIndex, ha]
  | cons b bs ih =>
    have hb : p b = false := hpre b (by simp)
    have := ih (fun x hx => hpre x (by simp [hx]))
    simp [firstIndex, hb, this]

theorem firstIndex_exists {α : Type} (p : α → Bool) (l : List α) (h : ∃ a ∈ l, p a = true) :
    ∃ pre a post, l = pre ++ a :: post ∧ firstIndex p l = some pre.length ∧ p a = true ∧
      ∀ x ∈ pre, p x = false := by
  cases hf : firstIndex p l with
  | none =>
    obtain ⟨a, ha, hpa⟩ := h
    have := (firstIndex_eq_none p l).mp hf a ha
    simp [hpa] at this
  | some i =>
    obtain ⟨pre, a, post, hl, hlen, ha, hpre⟩ := firstIndex_eq_some p l i hf
    exact ⟨pre, a, post, hl, by rw [hlen], ha, hpre⟩

theorem take_drop_split {α : Type} (pre : List α) (a : α) (post : List α) :
    (pre ++ a :: post).take pre.length ++ (pre ++ a :: post).drop (pre.length + 1) =
      pre ++ post := by
  simp [List.take_append_eq_append_take, List.drop_append_eq_append_drop]

theorem modify_split {α : Type} (f : α → α) (pre : List α) (a : α) (post : List α) :
    (pre ++ a :: post).modify f pre.length = pre ++ f a :: post := by
  induction pre with
  | nil => rfl
  | cons b bs ih => simpa [List.modify] using ih

theorem get?_split {α : Type} (pre : List α) (a : α) (post : List α) :
    (pre ++ a :: post).get? pre.length = some a := by
  induction pre with
  | nil => rfl
  | cons b bs ih => simpa using ih

/-! ### `Sprint` renders different numbers differently -/

theorem digit_toNat (d : Nat) (h : d < 10) : (Char.ofNat (48 + d)).toNat - 48 = d := by
  interval_cases d <;> rfl

theorem digit_ne_minus (d : Nat) (h : d < 10) : Char.ofNat (48 + d) ≠ '-' := by
  interval_cases d <;> decide

theorem decValue_decDigits (fuel n : Nat) (h : n < fuel) : decValue (decDigits fuel n) = n := by
  induction fuel generalizing n with
  | zero => omega
  | succ f ih =>
    unfold decDigits
    split
    · next hn => simp [decValue, digit_toNat n hn]
    · next hn =>
      have h1 := ih (n / 10) (by omega)
      unfold decValue at h1 ⊢
      rw [List.foldl_append, h1]
      simp [digit_toNat (n % 10) (Nat.mod_lt _ (by decide))]
      omega

theorem decDigits_ne_minus (fuel n : Nat) : ∀ c ∈ decDigits fuel n, c ≠ '-' := by
  induction fuel generalizing n with
  | zero => simp [decDigits]
  | succ f ih =>
    unfold decDigits
    split
    · next hn =>
      intro c hc
      rw [List.mem_singleton] at hc
      subst hc
      exact digit_ne_minus n hn
    · intro c hc
      rcases List.mem_append.mp hc with hc | hc
      · exact ih _ c hc
      · rw [List.mem_singleton] at hc
        subst hc
        exact digit_ne_minus _ (Nat.mod_lt _ (by decide))

theorem decDigits_ne_nil (fuel n : Nat) (h : n < fuel) : decDigits fuel n ≠ [] := by
  cases fuel with
  | zero => omega
  | succ f =>
    unfold decDigits
    split <;> simp

theorem Sprint_injective (a b : Int) (h : Sprint a = Sprint b) : a = b := by
  cases a with
  | ofNat m =>
    cases b with
    | ofNat k =>
      replace h := congrArg String.data h
      simp only [Sprint] at h
      have := congrArg decValue h
      rw [decValue_decDigits _ _ (by omega), decValue_decDigits _ _ (by omega)] at this
      rw [this]
    | negSucc k =>
      exfalso
      replace h := congrArg String.data h
      simp only [Sprint] at h
      have hm := decDigits_ne_minus (m + 1) m '-'
      rw [h] at hm
      exact hm (by simp) rfl
  | negSucc m =>
    cases b with
    | ofNat k =>
      exfalso
      replace h := congrArg String.data h
      simp only [Sprint] at h
      have hm := decDigits_ne_minus (k + 1) k '-'
      rw [← h] at hm
      exact hm (by simp) rfl
    | negSucc k =>
      replace h := congrArg String.data h
      simp only [Sprint, List.cons.injEq, true_and] at h
      have := congrArg decValue h
      rw [decValue_decDigits _ _ (by omega), decValue_decDigits _ _ (by omega)] at this
      have e : m = k := by omega
      rw [e]

namespace todo_main

theorem rangeFind_none (todos : List Todo) (id : String) :
    rangeFind todos id = none ↔ ∀ t ∈ todos, Sprint t.ID ≠ id := by
  simp [rangeFind, firstIndex_eq_none]

theorem rangeFind_exists (todos : List Todo) (id : String)
    (h : ∃ t ∈ todos, Sprint t.ID = id) :
    ∃ pre t post, todos = pre ++ t :: post ∧ rangeFind todos id = some pre.length ∧
      Sprint t.ID = id ∧ ∀ x ∈ pre, Sprint x.ID ≠ id := by
  obtain ⟨t, ht, hid⟩ := h
  obtain ⟨pre, a, post, hl, hf, ha, hpre⟩ :=
    firstIndex_exists (fun todo => Sprint todo.ID == id) todos ⟨t, ht, by simpa using hid⟩
  exact ⟨pre, a, post, hl, hf, by simpa using ha, fun x hx => by simpa using hpre x hx⟩

theorem patchTodo_split (pre : List Todo) (t : Todo) (post : List Todo) (id body : String)
    (ht : Sprint t.ID = id) (hpre : ∀ x ∈ pre, Sprint x.ID ≠ id) :
    patchTodo (pre ++ t :: post) id body =
      (.json 200 (.val (.item { t with Completed := true })),
        pre ++ { t with Completed := true } :: post) := by
  have hf : rangeFind (pre ++ t :: post) id = some pre.length :=
    firstIndex_split _ pre t post (by simpa using ht) (fun x hx => by simpa using hpre x hx)
  simp only [patchTodo, hf, modify_split, get?_split]

theorem deleteTodo_split (pre : List Todo) (t : Todo) (post : List Todo) (id : String)
    (ht : Sprint t.ID = id) (hpre : ∀ x ∈ pre, Sprint x.ID ≠ id) :
    deleteTodo (pre ++ t :: post) id =
      (.json 200 (.map [("success", .bool true)]), pre ++ post) := by
  have hf : rangeFind (pre ++ t :: post) id = some pre.length :=
    firstIndex_split _ pre t post (by simpa using ht) (fun x hx => by simpa using hpre x hx)
  simp only [deleteTodo, hf, take_drop_split]

theorem deleteTodo_none (todos : List Todo) (id : String) (h : ∀ t ∈ todos, Sprint t.ID ≠ id) :
    deleteTodo todos id = (.json 400 (.map [("error", .str "Todo not found")]), todos) := by
  simp [deleteTodo, (rangeFind_none todos id).mpr h]

end todo_main

/-! ## Create -/

/-- C2: in each variant a create request whose decoded payload has an empty
or missing `body` is answered with status 400 and a JSON error object and adds
no record: the in-memory list is the list before the request, and the
persistent handler leaves the collection and the record of driver calls as
they were, so no insert is issued. -/
theorem create_empty_body_rejected (todos : List Todo) (p : Payload) (db : Db)
    (q : Payload_mongoo) (env : Env)
    (hp : p.body = none ∨ p.body = some "") (hq : q.body = none ∨ q.body = some "") :
    ((todo_main.postTodo todos (some p)).1.status? = some 400 ∧
      (todo_main.postTodo todos (some p)).1.isErrorObject = true ∧
      (todo_main.postTodo todos (some p)).2 = todos ∧
      (todo_main.postTodo todos (some p)).2.length = todos.length) ∧
    ((createTodo db (some q) env).1.status? = some 400 ∧
      (createTodo db (some q) env).1.isErrorObject = true ∧
      (createTodo db (some q) env).2 = db ∧
      ∀ doc, Call.InsertOne doc ∈ (createTodo db (some q) env).2.calls →
        Call.InsertOne doc ∈ db.calls) := by
  have hp' : (BodyParser p).Body = "" := by
    rcases hp with h | h <;> simp [BodyParser, h]
  have hq' : (BodyParser_mongoo q).Body = "" := by
    rcases hq with h | h <;> simp [BodyParser_mongoo, h]
  refine ⟨?_, ?_⟩
  · simp [todo_main.postTodo, hp', Response.status?, Response.isErrorObject,
      JBody.isErrorObject]
  · simp [createTodo, hq', Response.status?, Response.isErrorObject,
      JBody.isErrorObject, errorMap]

/-- Instance of C2: payloads `{}` and `{"body": ""}` against non-empty stores. -/
theorem create_empty_body_rejected_witness :
    ((todo_main.postTodo [⟨1, false, "a"⟩] (some ⟨none, some true, none⟩)).1.status? = some 400 ∧
      (todo_main.postTodo [⟨1, false, "a"⟩] (some ⟨none, some true, none⟩)).1.isErrorObject
        = true ∧
      (todo_main.postTodo [⟨1, false, "a"⟩] (some ⟨none, some true, none⟩)).2
        = [⟨1, false, "a"⟩] ∧
      (todo_main.postTodo [⟨1, false, "a"⟩] (some ⟨none, some true, none⟩)).2.length
        = [(⟨1, false, "a"⟩ : Todo)].length) ∧
    ((createTodo ⟨[], []⟩ (some ⟨none, none, some ""⟩) ⟨7, 8, fun _ => false⟩).1.status?
        = some 400 ∧
      (createTodo ⟨[], []⟩ (some ⟨none, none, some ""⟩) ⟨7, 8, fun _ => false⟩).1.isErrorObject
        = true ∧
      (createTodo ⟨[], []⟩ (some ⟨none, none, some ""⟩) ⟨7, 8, fun _ => false⟩).2 = ⟨[], []⟩ ∧
      ∀ doc, Call.InsertOne doc ∈
          (createTodo ⟨[], []⟩ (some ⟨none, none, some ""⟩) ⟨7, 8, fun _ => false⟩).2.calls →
        Call.InsertOne doc ∈ (⟨[], []⟩ : Db).calls) :=
  create_empty_body_rejected [⟨1, false, "a"⟩] ⟨none, some true, none⟩ ⟨[], []⟩
    ⟨none, none, some ""⟩ ⟨7, 8, fun _ => false⟩ (Or.inl rfl) (Or.inr rfl)

/-- C3: in the in-memory variant a create whose payload carries a non-empty
`body` is answered with status 201; the list afterwards is the old list with
one record appended at the end, that record is the one returned, its body is
the submitted body, and its `completed` is `false` when the payload omits
`completed`. -/
theorem create_appends_one (todos : List Todo) (p : Payload) (b : String)
    (hb : p.body = some b) (hne : b ≠ "") :
    ∃ rec : Todo,
      todo_main.postTodo todos (some p) = (.json 201 (.val (.item rec)), todos ++ [rec]) ∧
      (todo_main.postTodo todos (some p)).2.length = todos.length + 1 ∧
      (∀ i, i < todos.length → (todo_main.postTodo todos (some p)).2.get? i = todos.get? i) ∧
      (todo_main.postTodo todos (some p)).2.get? todos.length = some rec ∧
      rec.Body = b ∧
      (p.completed = none → rec.Completed = false) := by
  refine ⟨{ ID := (todos.length : Int) + 1, Completed := p.completed.getD false, Body := b },
    ?_, ?_, ?_, ?_, rfl, ?_⟩
  · simp [todo_main.postTodo, BodyParser, hb, hne]
  · simp [todo_main.postTodo, BodyParser, hb, hne]
  · intro i hi
    simp [todo_main.postTodo, BodyParser, hb, hne, List.getElem?_append_left hi]
  · simp [todo_main.postTodo, BodyParser, hb, hne]
  · intro hc
    simp [hc]

/-- Instance of C3: `{"body": "buy milk"}` posted to a store of two records. -/
theorem create_appends_one_witness :
    ∃ rec : Todo,
      todo_main.postTodo [⟨1, true, "a"⟩, ⟨2, false, "b"⟩] (some ⟨none, none, some "buy milk"⟩)
        = (.json 201 (.val (.item rec)), [⟨1, true, "a"⟩, ⟨2, false, "b"⟩] ++ [rec]) ∧
      (todo_main.postTodo [⟨1, true, "a"⟩, ⟨2, false, "b"⟩]
        (some ⟨none, none, some "buy milk"⟩)).2.length
        = [(⟨1, true, "a"⟩ : Todo), ⟨2, false, "b"⟩].length + 1 ∧
      (∀ i, i < [(⟨1, true, "a"⟩ : Todo), ⟨2, false, "b"⟩].length →
        (todo_main.postTodo [⟨1, true, "a"⟩, ⟨2, false, "b"⟩]
          (some ⟨none, none, some "buy milk"⟩)).2.get? i
          = [(⟨1, true, "a"⟩ : Todo), ⟨2, false, "b"⟩].get? i) ∧
      (todo_main.postTodo [⟨1, true, "a"⟩, ⟨2, false, "b"⟩]
        (some ⟨none, none, some "buy milk"⟩)).2.get?
          [(⟨1, true, "a"⟩ : Todo), ⟨2, false, "b"⟩].length = some rec ∧
      rec.Body = "buy milk" ∧
      ((⟨none, none, some "buy milk"⟩ : Payload).completed = none → rec.Completed = false) :=
  create_appends_one [⟨1, true, "a"⟩, ⟨2, false, "b"⟩] ⟨none, none, some "buy milk"⟩ "buy milk"
    rfl (by decide)

/-! ## Patch -/

/-- C5: in the in-memory variant a patch whose path identifier is not the
decimal rendering of the id of any record is answered with a client-error
status (here 400) and a JSON error object, and the list is left as it was. -/
theorem patch_unknown_id (todos : List Todo) (id body : String)
    (h : ∀ t ∈ todos, Sprint t.ID ≠ id) :
    (∃ s, (todo_main.patchTodo todos id body).1.status? = some s ∧ 400 ≤ s ∧ s < 500) ∧
      (todo_main.patchTodo todos id body).1.isErrorObject = true ∧
      (todo_main.patchTodo todos id body).2 = todos := by
  have hf := (todo_main.rangeFind_none todos id).mpr h
  refine ⟨⟨400, ?_, by decide, by decide⟩, ?_, ?_⟩ <;>
    simp [todo_main.patchTodo, hf, Response.status?, Response.isErrorObject,
      JBody.isErrorObject]

/-- Instance of C5: patch of `7` against a store holding ids 1 and 2. -/
theorem patch_unknown_id_witness :
    (∃ s, (todo_main.patchTodo [⟨1, false, "a"⟩, ⟨2, false, "b"⟩] "7" "").1.status? = some s ∧
        400 ≤ s ∧ s < 500) ∧
      (todo_main.patchTodo [⟨1, false, "a"⟩, ⟨2, false, "b"⟩] "7" "").1.isErrorObject = true ∧
      (todo_main.patchTodo [⟨1, false, "a"⟩, ⟨2, false, "b"⟩] "7" "").2
        = [⟨1, false, "a"⟩, ⟨2, false, "b"⟩] :=
  patch_unknown_id [⟨1, false, "a"⟩, ⟨2, false, "b"⟩] "7" "" (by decide)

/-- C6: in the in-memory variant a patch whose identifier matches a record
sets `completed = true` on the first matching record and changes nothing else
(its id and body, all other records, order and length stay, and the request
body plays no role); a second application of the patch, with any body, gives
the same response and the same store as the first. -/
theorem patch_sets_completed (todos : List Todo) (id body : String)
    (h : ∃ t ∈ todos, Sprint t.ID = id) :
    ∃ pre t post, todos = pre ++ t :: post ∧ (∀ x ∈ pre, Sprint x.ID ≠ id) ∧
      Sprint t.ID = id ∧
      todo_main.patchTodo todos id body =
        (.json 200 (.val (.item { ID := t.ID, Completed := true, Body := t.Body })),
          pre ++ { ID := t.ID, Completed := true, Body := t.Body } :: post) ∧
      (todo_main.patchTodo todos id body).2.length = todos.length ∧
      (∀ body2, todo_main.patchTodo todos id body2 = todo_main.patchTodo todos id body) ∧
      (∀ body2, todo_main.patchTodo (todo_main.patchTodo todos id body).2 id body2 =
        todo_main.patchTodo todos id body) := by
  obtain ⟨pre, t, post, hl, -, ht, hpre⟩ := todo_main.rangeFind_exists todos id h
  subst hl
  have h1 := todo_main.patchTodo_split pre t post id body ht hpre
  refine ⟨pre, t, post, rfl, hpre, ht, h1, ?_, ?_, ?_⟩
  · simp [h1]
  · intro body2
    rw [h1, todo_main.patchTodo_split pre t post id body2 ht hpre]
  · intro body2
    rw [h1]
    exact todo_main.patchTodo_split pre { ID := t.ID, Completed := true, Body := t.Body } post
      id body2 ht hpre

/-- Instance of C6: patch of `2` against a store whose second and third record
both render as `2`. -/
theorem patch_sets_completed_witness :
    ∃ pre t post, [(⟨1, false, "a"⟩ : Todo), ⟨2, false, "b"⟩, ⟨2, false, "c"⟩]
        = pre ++ t :: post ∧ (∀ x ∈ pre, Sprint x.ID ≠ "2") ∧
      Sprint t.ID = "2" ∧
      todo_main.patchTodo [⟨1, false, "a"⟩, ⟨2, false, "b"⟩, ⟨2, false, "c"⟩] "2" "x" =
        (.json 200 (.val (.item { ID := t.ID, Completed := true, Body := t.Body })),
          pre ++ { ID := t.ID, Completed := true, Body := t.Body } :: post) ∧
      (todo_main.patchTodo [⟨1, false, "a"⟩, ⟨2, false, "b"⟩, ⟨2, false, "c"⟩] "2" "x").2.length
        = [(⟨1, false, "a"⟩ : Todo), ⟨2, false, "b"⟩, ⟨2, false, "c"⟩].length ∧
      (∀ body2, todo_main.patchTodo [⟨1, false, "a"⟩, ⟨2, false, "b"⟩, ⟨2, false, "c"⟩] "2" body2
        = todo_main.patchTodo [⟨1, false, "a"⟩, ⟨2, false, "b"⟩, ⟨2, false, "c"⟩] "2" "x") ∧
      (∀ body2, todo_main.patchTodo
          (todo_main.patchTodo [⟨1, false, "a"⟩, ⟨2, false, "b"⟩, ⟨2, false, "c"⟩] "2" "x").2
          "2" body2
        = todo_main.patchTodo [⟨1, false, "a"⟩, ⟨2, false, "b"⟩, ⟨2, false, "c"⟩] "2" "x") :=
  patch_sets_completed [⟨1, false, "a"⟩, ⟨2, false, "b"⟩, ⟨2, false, "c"⟩] "2" "x"
    ⟨⟨2, false, "b"⟩, by simp, by decide⟩

/-! ## Delete -/

/-- C4, as stated, fails. On the store with ids `2, 2` (reached by create,
create, delete `1`, create) a delete of `2` leaves a record with identifier `2`
and the second delete of `2` is answered 200; on the store with the single id
`1` the second delete of `1` is answered 400, not 404. -/
theorem delete_twice_counterexample :
    ¬ (∀ (todos : List Todo) (id : String), (∃ t ∈ todos, Sprint t.ID = id) →
        (todo_main.deleteTodo todos id).1.status? = some 200 ∧
        (todo_main.deleteTodo todos id).2.length + 1 = todos.length ∧
        (∀ t ∈ (todo_main.deleteTodo todos id).2, Sprint t.ID ≠ id) ∧
        (todo_main.deleteTodo (todo_main.deleteTodo todos id).2 id).1.status? = some 404) ∧
    todo_main.run todo_main.init
      [.create (some ⟨none, none, some "a"⟩), .create (some ⟨none, none, some "b"⟩),
        .delete "1", .create (some ⟨none, none, some "c"⟩)]
      = [⟨2, false, "b"⟩, ⟨2, false, "c"⟩] ∧
    (todo_main.deleteTodo [⟨2, false, "b"⟩, ⟨2, false, "c"⟩] "2").2 = [⟨2, false, "c"⟩] ∧
    (todo_main.deleteTodo [⟨2, false, "c"⟩] "2").1.status? = some 200 ∧
    (todo_main.deleteTodo [⟨1, false, "a"⟩] "1").2 = [] ∧
    (todo_main.deleteTodo [] "1").1.status? = some 400 := by
  refine ⟨?_, by decide, by decide, by decide, by decide, by decide⟩
  intro hall
  have h := (hall [⟨1, false, "a"⟩] "1" ⟨⟨1, false, "a"⟩, by simp, by decide⟩).2.2.2
  revert h
  decide

/-- C4, amended: in the in-memory variant a delete whose identifier matches a
record answers 200 and removes the first matching record and nothing else
(length one less, the other records unchanged and in order); when no later
record carries the same identifier, as is the case when the ids in the list
are pairwise distinct, the list served next contains no record with that
identifier, and a second delete with the same identifier is answered with a
client-error status and a JSON error object and leaves the list as it is. -/
theorem delete_removes_first_match (todos : List Todo) (id : String)
    (h : ∃ t ∈ todos, Sprint t.ID = id) :
    ∃ pre t post, todos = pre ++ t :: post ∧ (∀ x ∈ pre, Sprint x.ID ≠ id) ∧
      Sprint t.ID = id ∧
      todo_main.deleteTodo todos id = (.json 200 (.map [("success", .bool true)]), pre ++ post) ∧
      (todo_main.deleteTodo todos id).2.length + 1 = todos.length ∧
      (((todos.map (·.ID)).Nodup ∨ ∀ x ∈ post, Sprint x.ID ≠ id) →
        (∃ l, (todo_main.getTodos (todo_main.deleteTodo todos id).2).1
            = .json 200 (.val (.items l)) ∧ ∀ x ∈ l, Sprint x.ID ≠ id) ∧
        (∃ s, (todo_main.deleteTodo (todo_main.deleteTodo todos id).2 id).1.status? = some s ∧
          400 ≤ s ∧ s < 500) ∧
        (todo_main.deleteTodo (todo_main.deleteTodo todos id).2 id).1.isErrorObject = true ∧
        (todo_main.deleteTodo (todo_main.deleteTodo todos id).2 id).2
          = (todo_main.deleteTodo todos id).2) := by
  obtain ⟨pre, t, post, hl, -, ht, hpre⟩ := todo_main.rangeFind_exists todos id h
  subst hl
  have h1 := todo_main.deleteTodo_split pre t post id ht hpre
  refine ⟨pre, t, post, rfl, hpre, ht, h1, by simp [h1]; omega, ?_⟩
  intro hcond
  have hpost : ∀ x ∈ post, Sprint x.ID ≠ id := by
    rcases hcond with hnd | hpost
    · intro x hx hxid
      have hxt : x.ID = t.ID := Sprint_injective _ _ (hxid.trans ht.symm)
      rw [List.map_append, List.map_cons, List.nodup_append] at hnd
      have hnot := (List.nodup_cons.mp hnd.2.1).1
      exact hnot (List.mem_map.mpr ⟨x, hx, hxt⟩)
    · exact hpost
  have hrest : ∀ x ∈ pre ++ post, Sprint x.ID ≠ id := by
    intro x hx
    rcases List.mem_append.mp hx with hx | hx
    · exact hpre x hx
    · exact hpost x hx
  rw [h1]
  refine ⟨⟨pre ++ post, rfl, hrest⟩, ⟨400, ?_, by decide, by decide⟩, ?_⟩
  · simp [todo_main.deleteTodo_none _ id hrest, Response.status?]
  · simp [todo_main.deleteTodo_none _ id hrest, Response.isErrorObject,
      JBody.isErrorObject]

/-- Instance of the amended C4: delete of `2` from a store with ids 1, 2, 3. -/
theorem delete_removes_first_match_witness :
    ∃ pre t post, [(⟨1, false, "a"⟩ : Todo), ⟨2, true, "b"⟩, ⟨3, false, "c"⟩]
        = pre ++ t :: post ∧ (∀ x ∈ pre, Sprint x.ID ≠ "2") ∧
      Sprint t.ID = "2" ∧
      todo_main.deleteTodo [⟨1, false, "a"⟩, ⟨2, true, "b"⟩, ⟨3, false, "c"⟩] "2"
        = (.json 200 (.map [("success", .bool true)]), pre ++ post) ∧
      (todo_main.deleteTodo [⟨1, false, "a"⟩, ⟨2, true, "b"⟩, ⟨3, false, "c"⟩] "2").2.length + 1
        = [(⟨1, false, "a"⟩ : Todo), ⟨2, true, "b"⟩, ⟨3, false, "c"⟩].length ∧
      ((([(⟨1, false, "a"⟩ : Todo), ⟨2, true, "b"⟩, ⟨3, false, "c"⟩].map (·.ID)).Nodup ∨
          ∀ x ∈ post, Sprint x.ID ≠ "2") →
        (∃ l, (todo_main.getTodos
            (todo_main.deleteTodo [⟨1, false, "a"⟩, ⟨2, true, "b"⟩, ⟨3, false, "c"⟩] "2").2).1
            = .json 200 (.val (.items l)) ∧ ∀ x ∈ l, Sprint x.ID ≠ "2") ∧
        (∃ s, (todo_main.deleteTodo
          (todo_main.deleteTodo [⟨1, false, "a"⟩, ⟨2, true, "b"⟩, ⟨3, false, "c"⟩] "2").2
          "2").1.status? = some s ∧ 400 ≤ s ∧ s < 500) ∧
        (todo_main.deleteTodo
          (todo_main.deleteTodo [⟨1, false, "a"⟩, ⟨2, true, "b"⟩, ⟨3, false, "c"⟩] "2").2
          "2").1.isErrorObject = true ∧
        (todo_main.deleteTodo
          (todo_main.deleteTodo [⟨1, false, "a"⟩, ⟨2, true, "b"⟩, ⟨3, false, "c"⟩] "2").2
          "2").2
          = (todo_main.deleteTodo [⟨1, false, "a"⟩, ⟨2, true, "b"⟩, ⟨3, false, "c"⟩] "2").2) :=
  delete_removes_first_match [⟨1, false, "a"⟩, ⟨2, true, "b"⟩, ⟨3, false, "c"⟩] "2"
    ⟨⟨2, true, "b"⟩, by simp, by decide⟩

/-! ## Identifiers across a run -/

namespace todo_main

theorem idsFrom_append (R : Int → Int → Prop) (k : Int) (a b : List Todo) :
    idsFrom R k (a ++ b) ↔ idsFrom R k a ∧ idsFrom R (k + a.length) b := by
  induction a generalizing k with
  | nil => simp [idsFrom]
  | cons t ts ih =>
    have e : k + 1 + (ts.length : Int) = k + ((ts.length : Int) + 1) := by ring
    simp [idsFrom, ih, and_assoc, e]

theorem idsFrom_le_mono (k k2 : Int) (h : k2 ≤ k) (l : List Todo) :
    idsFrom (· ≤ ·) k l → idsFrom (· ≤ ·) k2 l := by
  induction l generalizing k k2 with
  | nil => simp [idsFrom]
  | cons t ts ih =>
    intro hl
    exact ⟨le_trans h hl.1, ih (k + 1) (k2 + 1) (by omega) hl.2⟩

theorem idsFrom_get? (R : Int → Int → Prop) (k : Int) (l : List Todo) (h : idsFrom R k l)
    (i : Nat) (t : Todo) (ht : l.get? i = some t) : R (k + i) t.ID := by
  induction l generalizing k i with
  | nil => simp at ht
  | cons a as ih =>
    cases i with
    | zero =>
      simp at ht
      subst ht
      simpa using h.1
    | succ j =>
      have := ih (k + 1) h.2 j (by simpa using ht)
      have e : k + 1 + (j : Int) = k + ((j + 1 : Nat) : Int) := by push_cast; ring
      rwa [e] at this

theorem idsFrom_eq_nodup (k : Int) (l : List Todo) (h : idsFrom (· = ·) k l) :
    (l.map (·.ID)).Nodup ∧ ∀ x ∈ l.map (·.ID), k ≤ x := by
  induction l generalizing k with
  | nil => simp
  | cons a as ih =>
    obtain ⟨h1, h2⟩ := ih (k + 1) h.2
    have ha : k = a.ID := h.1
    refine ⟨?_, ?_⟩
    · rw [List.map_cons, List.nodup_cons]
      refine ⟨fun hmem => ?_, h1⟩
      have := h2 _ hmem
      omega
    · intro x hx
      rw [List.map_cons, List.mem_cons] at hx
      rcases hx with rfl | hx
      · omega
      · have := h2 x hx
        omega

/-- Every handler keeps `id ≥ position + 1`. -/
theorem handle_idsFrom_le (todos : List Todo) (r : Request)
    (h : idsFrom (· ≤ ·) 1 todos) : idsFrom (· ≤ ·) 1 (handle todos r).2 := by
  cases r with
  | root => exact h
  | list => exact h
  | create body =>
    cases body with
    | none => exact h
    | some p =>
      by_cases hb : (BodyParser p).Body = ""
      · simpa [handle, postTodo, hb] using h
      · simp only [handle, postTodo, hb, if_false]
        rw [idsFrom_append]
        refine ⟨h, ?_, trivial⟩
        show (1 : Int) + todos.length ≤ (todos.length : Int) + 1
        omega
  | patch id body =>
    cases hf : rangeFind todos id with
    | none => simpa [handle, patchTodo, hf] using h
    | some i =>
      obtain ⟨pre, t, post, hl, hlen, ht, hpre⟩ := firstIndex_eq_some _ todos i hf
      subst hl
      have h1 := patchTodo_split pre t post id body (by simpa using ht)
        (fun x hx => by simpa using hpre x hx)
      simp only [handle, h1]
      rw [idsFrom_append] at h ⊢
      exact ⟨h.1, h.2.1, h.2.2⟩
  | delete id =>
    cases hf : rangeFind todos id with
    | none => simpa [handle, deleteTodo, hf] using h
    | some i =>
      obtain ⟨pre, t, post, hl, hlen, ht, hpre⟩ := firstIndex_eq_some _ todos i hf
      subst hl
      have h1 := deleteTodo_split pre t post id (by simpa using ht)
        (fun x hx => by simpa using hpre x hx)
      simp only [handle, h1]
      rw [idsFrom_append] at h ⊢
      exact ⟨h.1, idsFrom_le_mono _ _ (by omega) post h.2.2⟩

/-- Every handler other than a delete answered 200 keeps `id = position + 1`. -/
theorem handle_idsFrom_eq (todos : List Todo) (r : Request)
    (hr : ∀ id, r = .delete id → (handle todos r).1.status? ≠ some 200)
    (h : idsFrom (· = ·) 1 todos) : idsFrom (· = ·) 1 (handle todos r).2 := by
  cases r with
  | root => exact h
  | list => exact h
  | create body =>
    cases body with
    | none => exact h
    | some p =>
      by_cases hb : (BodyParser p).Body = ""
      · simpa [handle, postTodo, hb] using h
      · simp only [handle, postTodo, hb, if_false]
        rw [idsFrom_append]
        refine ⟨h, ?_, trivial⟩
        show (1 : Int) + todos.length = (todos.length : Int) + 1
        omega
  | patch id body =>
    cases hf : rangeFind todos id with
    | none => simpa [handle, patchTodo, hf] using h
    | some i =>
      obtain ⟨pre, t, post, hl, hlen, ht, hpre⟩ := firstIndex_eq_some _ todos i hf
      subst hl
      have h1 := patchTodo_split pre t post id body (by simpa using ht)
        (fun x hx => by simpa using hpre x hx)
      simp only [handle, h1]
      rw [idsFrom_append] at h ⊢
      exact ⟨h.1, h.2.1, h.2.2⟩
  | delete id =>
    cases hf : rangeFind todos id with
    | none => simpa [handle, deleteTodo, hf] using h
    | some i =>
      exfalso
      apply hr id rfl
      simp [handle, deleteTodo, hf, Response.status?]

theorem run_idsFrom_le (todos : List Todo) (reqs : List Request)
    (h : idsFrom (· ≤ ·) 1 todos) : idsFrom (· ≤ ·) 1 (run todos reqs) := by
  induction reqs generalizing todos with
  | nil => exact h
  | cons r rs ih => exact ih _ (handle_idsFrom_le todos r h)

theorem run_idsFrom_eq (todos : List Todo) (reqs : List Request)
    (hd : noDeleteSucceeds todos reqs = true)
    (h : idsFrom (· = ·) 1 todos) : idsFrom (· = ·) 1 (run todos reqs) := by
  induction reqs generalizing todos with
  | nil => exact h
  | cons r rs ih =>
    simp only [noDeleteSucceeds, Bool.and_eq_true] at hd
    refine ih _ hd.2 (handle_idsFrom_eq todos r ?_ h)
    intro id hid
    subst hid
    simpa using hd.1

end todo_main

/-- C10: every store reached from the empty list by create, patch and delete
requests has, at each 0-based position `i`, a record with id at least `i + 1`
(so every id is at least 1); if no delete of the sequence succeeded, the id at
position `i` is exactly `i + 1`, and the ids are pairwise distinct. -/
theorem reachable_ids_bounded (reqs : List todo_main.Request) :
    (∀ i t, (todo_main.run todo_main.init reqs).get? i = some t →
      (i : Int) + 1 ≤ t.ID ∧ 1 ≤ t.ID) ∧
    (todo_main.noDeleteSucceeds todo_main.init reqs = true →
      (∀ i t, (todo_main.run todo_main.init reqs).get? i = some t → t.ID = (i : Int) + 1) ∧
      ((todo_main.run todo_main.init reqs).map (·.ID)).Nodup) := by
  refine ⟨?_, ?_⟩
  · intro i t ht
    have h := todo_main.idsFrom_get? _ 1 _
      (todo_main.run_idsFrom_le todo_main.init reqs trivial) i t ht
    have h' : (1 : Int) + i ≤ t.ID := h
    constructor <;> omega
  · intro hd
    have hrun := todo_main.run_idsFrom_eq todo_main.init reqs hd trivial
    refine ⟨?_, (todo_main.idsFrom_eq_nodup 1 _ hrun).1⟩
    intro i t ht
    have h : (1 : Int) + i = t.ID := todo_main.idsFrom_get? _ 1 _ hrun i t ht
    omega

/-- Instance of C10: two creates, a patch and a failing delete. -/
theorem reachable_ids_bounded_witness :
    todo_main.noDeleteSucceeds todo_main.init
      [.create (some ⟨none, none, some "a"⟩), .create (some ⟨some 9, none, some "b"⟩),
        .patch "1" "", .delete "5"] = true ∧
    (todo_main.run todo_main.init
      [.create (some ⟨none, none, some "a"⟩), .create (some ⟨some 9, none, some "b"⟩),
        .patch "1" "", .delete "5"]).get? 1 = some ⟨2, false, "b"⟩ ∧
    (⟨2, false, "b"⟩ : Todo).ID = ((1 : Nat) : Int) + 1 ∧
    ((todo_main.run todo_main.init
      [.create (some ⟨none, none, some "a"⟩), .create (some ⟨some 9, none, some "b"⟩),
        .patch "1" "", .delete "5"]).map (·.ID)).Nodup :=
  ⟨by decide, by decide,
    ((reachable_ids_bounded
      [.create (some ⟨none, none, some "a"⟩), .create (some ⟨some 9, none, some "b"⟩),
        .patch "1" "", .delete "5"]).2 (by decide)).1 1 ⟨2, false, "b"⟩ (by decide),
    ((reachable_ids_bounded
      [.create (some ⟨none, none, some "a"⟩), .create (some ⟨some 9, none, some "b"⟩),
        .patch "1" "", .delete "5"]).2 (by decide)).2⟩

namespace todo_main

theorem createdIds_cons (r : Response Todo) (rs : List (Response Todo)) :
    createdIds (r :: rs) =
      (match createdId? r with
        | some x => x :: createdIds rs
        | none => createdIds rs) := by
  cases h : createdId? r <;> simp [createdIds, List.filterMap_cons, h]

/-- One step of a run without successful delete: the list does not shrink, and
an id reported as created is the new length. -/
theorem handle_step_created (todos : List Todo) (r : Request)
    (hr : ∀ id, r = .delete id → (handle todos r).1.status? ≠ some 200) :
    todos.length ≤ (handle todos r).2.length ∧
      ∀ x, createdId? (handle todos r).1 = some x →
        x = (todos.length : Int) + 1 ∧ (handle todos r).2.length = todos.length + 1 := by
  cases r with
  | root => simp [handle, root, createdId?]
  | list => simp [handle, getTodos, createdId?]
  | create body =>
    cases body with
    | none => simp [handle, postTodo, createdId?]
    | some p =>
      by_cases hb : (BodyParser p).Body = ""
      · simp [handle, postTodo, hb, createdId?]
      · simp only [handle, postTodo, hb, if_false, createdId?]
        simp
  | patch id body =>
    cases hf : rangeFind todos id with
    | none => simp [handle, patchTodo, hf, createdId?]
    | some i =>
      obtain ⟨pre, t, post, hl, hlen, ht, hpre⟩ := firstIndex_eq_some _ todos i hf
      subst hl
      have h1 := patchTodo_split pre t post id body (by simpa using ht)
        (fun x hx => by simpa using hpre x hx)
      simp [handle, h1, createdId?]
  | delete id =>
    cases hf : rangeFind todos id with
    | none => simp [handle, deleteTodo, hf, createdId?]
    | some i =>
      exfalso
      apply hr id rfl
      simp [handle, deleteTodo, hf, Response.status?]

theorem createdIds_increasing (todos : List Todo) (reqs : List Request)
    (hd : noDeleteSucceeds todos reqs = true) :
    (∀ x ∈ createdIds (responses todos reqs), (todos.length : Int) < x) ∧
      (createdIds (responses todos reqs)).Pairwise (· < ·) := by
  induction reqs generalizing todos with
  | nil => simp [responses, createdIds]
  | cons r rs ih =>
    simp only [noDeleteSucceeds, Bool.and_eq_true] at hd
    have hr : ∀ id, r = .delete id → (handle todos r).1.status? ≠ some 200 := by
      intro id hid
      subst hid
      simpa using hd.1
    obtain ⟨hlen, hnew⟩ := handle_step_created todos r hr
    obtain ⟨hgt, hpw⟩ := ih (handle todos r).2 hd.2
    have hgt' : ∀ x ∈ createdIds (responses (handle todos r).2 rs), (todos.length : Int) < x := by
      intro x hx
      have := hgt x hx
      omega
    rw [responses, createdIds_cons]
    cases hc : createdId? (handle todos r).1 with
    | none => exact ⟨hgt', hpw⟩
    | some x =>
      obtain ⟨hx, hlen'⟩ := hnew x hc
      refine ⟨?_, ?_⟩
      · intro y hy
        rcases List.mem_cons.mp hy with rfl | hy
        · omega
        · exact hgt' y hy
      · refine List.pairwise_cons.mpr ⟨?_, hpw⟩
        intro y hy
        have := hgt y hy
        omega

end todo_main

/-- C1 fails on the code: after create, create, delete `1` the store holds
the single id 2, and the next create returns id 2 again, so the list then
holds two records with the same id. -/
theorem create_id_collides :
    todo_main.run todo_main.init
      [.create (some ⟨none, none, some "a"⟩), .create (some ⟨none, none, some "b"⟩),
        .delete "1"] = [⟨2, false, "b"⟩] ∧
    todo_main.postTodo [⟨2, false, "b"⟩] (some ⟨none, none, some "c"⟩)
      = (.json 201 (.val (.item ⟨2, false, "c"⟩)), [⟨2, false, "b"⟩, ⟨2, false, "c"⟩]) ∧
    ¬ ((todo_main.postTodo [⟨2, false, "b"⟩] (some ⟨none, none, some "c"⟩)).2.map (·.ID)).Nodup := by
  decide

/-- C9, as stated, fails: create, delete `1`, create returns the ids 1 and 1,
so the second create neither returns a greater id nor avoids the id of the
record deleted before it. -/
theorem created_ids_counterexample :
    ¬ (∀ reqs : List todo_main.Request,
        (todo_main.createdIds (todo_main.responses todo_main.init reqs)).Pairwise (· < ·)) ∧
    todo_main.createdIds (todo_main.responses todo_main.init
      [.create (some ⟨none, none, some "a"⟩), .delete "1",
        .create (some ⟨none, none, some "b"⟩)]) = [1, 1] := by
  refine ⟨fun hall => ?_, by decide⟩
  have h := hall [.create (some ⟨none, none, some "a"⟩), .delete "1",
    .create (some ⟨none, none, some "b"⟩)]
  revert h
  decide

/-- C9, amended: the id assigned by a successful create is the count of
existing items plus one; and in every sequence of requests from the empty
store in which no delete succeeds, each successful create returns an id
strictly greater than the ids returned by all earlier successful creates. -/
theorem created_ids_increasing :
    (∀ (todos : List Todo) (p : Payload), (BodyParser p).Body ≠ "" →
      ∃ rec, (todo_main.postTodo todos (some p)).1 = .json 201 (.val (.item rec)) ∧
        rec.ID = (todos.length : Int) + 1) ∧
    (∀ reqs : List todo_main.Request, todo_main.noDeleteSucceeds todo_main.init reqs = true →
      (todo_main.createdIds (todo_main.responses todo_main.init reqs)).Pairwise (· < ·)) := by
  refine ⟨?_, fun reqs hd => (todo_main.createdIds_increasing _ reqs hd).2⟩
  intro todos p hb
  exact ⟨⟨(todos.length : Int) + 1, (BodyParser p).Completed, (BodyParser p).Body⟩,
    by simp [todo_main.postTodo, hb], rfl⟩

/-- Instance of the amended C9: creates interleaved with a patch and a failing
delete return the ids 1, 2, 3. -/
theorem created_ids_increasing_witness :
    (∃ rec, (todo_main.postTodo [⟨1, false, "a"⟩] (some ⟨some 40, none, some "b"⟩)).1
        = .json 201 (.val (.item rec)) ∧ rec.ID = (([⟨1, false, "a"⟩] : List Todo).length : Int) + 1) ∧
    todo_main.createdIds (todo_main.responses todo_main.init
      [.create (some ⟨none, none, some "a"⟩), .create (some ⟨none, none, some "b"⟩),
        .patch "2" "", .delete "9", .create (some ⟨none, none, some "c"⟩)]) = [1, 2, 3] ∧
    (todo_main.createdIds (todo_main.responses todo_main.init
      [.create (some ⟨none, none, some "a"⟩), .create (some ⟨none, none, some "b"⟩),
        .patch "2" "", .delete "9", .create (some ⟨none, none, some "c"⟩)])).Pairwise (· < ·) :=
  ⟨created_ids_increasing.1 [⟨1, false, "a"⟩] ⟨some 40, none, some "b"⟩ (by decide),
    by decide, created_ids_increasing.2 _ (by decide)⟩

/-! ## Driver calls and the handlers of the persistent program -/

theorem Db.Find_snd (db : Db) (failed : Bool) :
    (db.Find failed).2 = { db with calls := db.calls ++ [Call.Find] } := by
  unfold Db.Find
  split <;> rfl

theorem Db.FindOne_docs (db : Db) (o : ObjectID) (failed : Bool) :
    (db.FindOne o failed).2.docs = db.docs := by
  simp only [Db.FindOne]
  repeat' split
  all_goals rfl

theorem Db.InsertOne_calls (db : Db) (doc : Doc) (driverId : ObjectID) (failed : Bool) :
    (db.InsertOne doc driverId failed).2.calls = db.calls ++ [Call.InsertOne doc] := by
  simp only [Db.InsertOne]
  repeat' split
  all_goals rfl

theorem Db.InsertOne_docs (db : Db) (doc : Doc) (driverId : ObjectID) (failed : Bool) :
    ∃ added, (db.InsertOne doc driverId failed).2.docs = db.docs ++ added := by
  simp only [Db.InsertOne]
  repeat' split
  all_goals first
    | exact ⟨[], (List.append_nil _).symm⟩
    | exact ⟨_, rfl⟩

theorem Db.DeleteOne_docs (db : Db) (o : ObjectID) (failed : Bool) :
    List.Sublist (db.DeleteOne o failed).2.docs db.docs := by
  simp only [Db.DeleteOne]
  repeat' split
  all_goals first
    | exact List.Sublist.refl _
    | (simp only [← List.eraseIdx_eq_take_drop_succ]; exact List.eraseIdx_sublist _ _)

theorem getTodos_snd (db : Db) (env : Env) :
    (getTodos db env).2 = (db.Find (env.fails 0)).2 := by
  unfold getTodos
  generalize db.Find (env.fails 0) = r
  rcases r with ⟨_ | docs, db2⟩
  · rfl
  · simp only
    split <;> rfl

theorem createTodo_snd (db : Db) (q : Payload_mongoo) (env : Env)
    (hb : (BodyParser_mongoo q).Body ≠ "") :
    (createTodo db (some q) env).2 =
      (db.InsertOne (Todo_mongoo.marshal
        { ID := env.newId, Completed := (BodyParser_mongoo q).Completed,
          Body := (BodyParser_mongoo q).Body }) env.driverId (env.fails 0)).2 := by
  have hc : (if (BodyParser_mongoo q).Completed = false then
        ({ ID := env.newId, Completed := false, Body := (BodyParser_mongoo q).Body } : Todo_mongoo)
      else { ID := env.newId, Completed := (BodyParser_mongoo q).Completed,
             Body := (BodyParser_mongoo q).Body }) =
      { ID := env.newId, Completed := (BodyParser_mongoo q).Completed,
        Body := (BodyParser_mongoo q).Body } := by
    split
    · next h => rw [h]
    · rfl
  simp only [createTodo, hb, if_false, hc]
  generalize db.InsertOne _ env.driverId (env.fails 0) = r
  rcases r with ⟨_ | v, db2⟩
  · rfl
  · cases v <;> rfl

theorem deleteTodo_docs (db : Db) (idParam : String) (env : Env) :
    List.Sublist (deleteTodo db idParam env).2.docs db.docs := by
  unfold deleteTodo
  split
  · exact List.Sublist.refl _
  · next o _ =>
    have h := Db.DeleteOne_docs db o (env.fails 0)
    generalize db.DeleteOne o (env.fails 0) = r at h
    rcases r with ⟨_ | n, db2⟩
    · exact h
    · simp only
      split <;> exact h

theorem updateTodo_docs (db : Db) (idParam : String) (body : Option Doc) (env : Env) :
    (updateTodo db idParam body env).2.docs = db.docs ∨
      ∃ o set, body = some set ∧
        (updateTodo db idParam body env).2.docs = (db.UpdateOne o set (env.fails 0)).2.docs := by
  unfold updateTodo
  split
  · exact Or.inl rfl
  · next o _ =>
    cases body with
    | none => exact Or.inl rfl
    | some set =>
      refine Or.inr ⟨o, set, rfl, ?_⟩
      simp only
      generalize db.UpdateOne o set (env.fails 0) = r
      rcases r with ⟨_ | n, db2⟩
      · rfl
      · simp only
        split
        · rfl
        · have h := Db.FindOne_docs db2 o (env.fails 1)
          generalize db2.FindOne o (env.fails 1) = r2 at h
          rcases r2 with ⟨_ | d, db3⟩
          · exact h
          · simp only
            split <;> exact h

theorem Doc.lookup_setKey (d : Doc) (k k2 : String) (v : BsonVal) :
    List.lookup k (Doc.setKey d k2 v) = if k = k2 then some v else List.lookup k d := by
  induction d with
  | nil =>
    by_cases h : k = k2
    · simp [Doc.setKey, List.lookup, h]
    · have hb : (k == k2) = false := by simpa using h
      simp [Doc.setKey, List.lookup, h, hb]
  | cons kv d ih =>
    obtain ⟨k3, v3⟩ := kv
    by_cases h3 : k3 = k2
    · subst h3
      by_cases h : k = k3
      · simp [Doc.setKey, List.lookup, h]
      · have hb : (k == k3) = false := by simpa using h
        simp [Doc.setKey, List.lookup, h, hb]
    · by_cases hk : k = k3
      · subst hk
        simp [Doc.setKey, List.lookup, h3]
      · have hb : (k == k3) = false := by simpa using hk
        simp [Doc.setKey, List.lookup, h3, hb, ih]

theorem Doc.lookup_applySet_inv (P : Option BsonVal → Prop) (k : String) (set : Doc)
    (d : Doc) (hd : P (List.lookup k d)) (hset : ∀ v, (k, v) ∈ set → P (some v)) :
    P (List.lookup k (Doc.applySet d set)) := by
  unfold Doc.applySet
  induction set generalizing d with
  | nil => simpa using hd
  | cons kv set ih =>
    obtain ⟨k2, v2⟩ := kv
    rw [List.foldl_cons]
    apply ih
    · rw [Doc.lookup_setKey]
      by_cases h : k = k2
      · subst h
        simpa using hset v2 (by simp)
      · simpa [h] using hd
    · intro v hv
      exact hset v (by simp [hv])

theorem forall₂_self {α : Type} (R : α → α → Prop) (hR : ∀ a, R a a) (l : List α) :
    List.Forall₂ R l l := by
  induction l with
  | nil => exact List.Forall₂.nil
  | cons a as ih => exact List.Forall₂.cons (hR a) ih

theorem forall₂_split {α : Type} (R : α → α → Prop) (hR : ∀ a, R a a) (pre : List α)
    (a b : α) (post : List α) (hab : R a b) :
    List.Forall₂ R (pre ++ a :: post) (pre ++ b :: post) := by
  induction pre with
  | nil => exact List.Forall₂.cons hab (forall₂_self R hR post)
  | cons c cs ih => exact List.Forall₂.cons (hR c) ih

theorem Db.UpdateOne_docs (db : Db) (o : ObjectID) (set : Doc) (failed : Bool)
    (hset : ∀ v, ("completed", v) ∈ set → decodeBool (some v) = some true) :
    List.Forall₂
      (fun a b : Doc => List.lookup "_id" a = List.lookup "_id" b ∧
        (a.completed = true → b.completed = true))
      db.docs (db.UpdateOne o set failed).2.docs := by
  have hrefl : ∀ a : Doc, List.lookup "_id" a = List.lookup "_id" a ∧
      (a.completed = true → a.completed = true) := fun a => ⟨rfl, id⟩
  simp only [Db.UpdateOne]
  split
  · exact forall₂_self _ hrefl _
  · split
    · exact forall₂_self _ hrefl _
    · next i hpos =>
      split
      · exact forall₂_self _ hrefl _
      · next hid =>
        obtain ⟨pre, d, post, hl, hlen, hd, -⟩ := firstIndex_eq_some _ db.docs i hpos
        have hid2 : ∀ v, ("_id", v) ∈ set → v = BsonVal.oid o := by
          intro v hv
          by_contra hne
          apply hid
          rw [List.any_eq_true]
          exact ⟨("_id", v), hv, by simp [hne]⟩
        have hdid : List.lookup "_id" d = some (BsonVal.oid o) := by
          simpa [Doc.hasId] using hd
        simp only [hl, ← hlen, modify_split]
        apply forall₂_split _ hrefl
        refine ⟨?_, ?_⟩
        · rw [hdid]
          exact (Doc.lookup_applySet_inv (fun r => r = some (BsonVal.oid o)) "_id" set d hdid
            (fun v hv => by rw [hid2 v hv])).symm
        · intro hc
          have hc2 : decodeBool (List.lookup "completed" d) = some true := by
            simpa [Doc.completed] using hc
          have := Doc.lookup_applySet_inv (fun r => decodeBool r = some true) "completed" set d
            hc2 hset
          simpa [Doc.completed] using this

/-! ## Completion is not undone -/

/-- C7, as stated, fails in the persistent variant: an update carrying
`{"completed": false}` for a stored, completed Todo leaves it in the store
under the same identifier with `completed` equal to `false`. -/
theorem completed_reset_counterexample :
    ¬ (∀ (db : Db) (env : Env) (req : Request),
        KeepsCompleted (fun d : Doc => List.lookup "_id" d) Doc.completed
          db.docs (handle db env req).2.docs) ∧
    (handle ⟨[[("_id", .oid 10), ("completed", .bool true), ("body", .str "a")]], []⟩
        ⟨1, 2, fun _ => false⟩
        (.update "00000000000000000000000a" (some [("completed", .bool false)]))).2.docs
      = [[("_id", .oid 10), ("completed", .bool false), ("body", .str "a")]] := by
  have hrun : (handle ⟨[[("_id", .oid 10), ("completed", .bool true), ("body", .str "a")]], []⟩
        ⟨1, 2, fun _ => false⟩
        (.update "00000000000000000000000a" (some [("completed", .bool false)]))).2.docs
      = [[("_id", .oid 10), ("completed", .bool false), ("body", .str "a")]] := by decide
  refine ⟨fun hall => ?_, hrun⟩
  have h := hall ⟨[[("_id", .oid 10), ("completed", .bool true), ("body", .str "a")]], []⟩
    ⟨1, 2, fun _ => false⟩
    (.update "00000000000000000000000a" (some [("completed", .bool false)]))
  rw [hrun] at h
  rcases h with h | h | ⟨added, h⟩
  · rw [List.forall₂_cons] at h
    have := h.1.2 (by decide)
    revert this
    decide
  · rw [List.sublist_singleton] at h
    revert h
    decide
  · revert h
    cases added <;> simp

/-- C7, amended: in the in-memory variant no request moves a Todo that stays
in the store from completed back to incomplete; in the persistent variant the
same holds for every request other than an update whose field map assigns
`completed` a value that does not decode to `true` (`true` itself and a
non-zero number do). -/
theorem completed_kept :
    (∀ (todos : List Todo) (req : todo_main.Request),
      KeepsCompleted (fun t : Todo => (t.ID, t.Body)) (fun t => t.Completed)
        todos (todo_main.handle todos req).2) ∧
    (∀ (db : Db) (env : Env) (req : Request),
      (∀ idParam set, req = .update idParam (some set) →
        ∀ v, ("completed", v) ∈ set → decodeBool (some v) = some true) →
      KeepsCompleted (fun d : Doc => List.lookup "_id" d) Doc.completed
        db.docs (handle db env req).2.docs) := by
  refine ⟨?_, ?_⟩
  · intro todos req
    cases req with
    | root => exact Or.inr (Or.inl (List.Sublist.refl _))
    | list => exact Or.inr (Or.inl (List.Sublist.refl _))
    | create body =>
      refine Or.inr (Or.inr ?_)
      cases body with
      | none => exact ⟨[], (List.append_nil _).symm⟩
      | some p =>
        by_cases hb : (BodyParser p).Body = ""
        · exact ⟨[], by simp [todo_main.handle, todo_main.postTodo, hb]⟩
        · simp only [todo_main.handle, todo_main.postTodo, hb, if_false]
          exact ⟨_, rfl⟩
    | patch id body =>
      cases hf : todo_main.rangeFind todos id with
      | none =>
        refine Or.inr (Or.inl ?_)
        simp [todo_main.handle, todo_main.patchTodo, hf]
      | some i =>
        obtain ⟨pre, t, post, hl, hlen, ht, hpre⟩ := firstIndex_eq_some _ todos i hf
        subst hl
        have h1 := todo_main.patchTodo_split pre t post id body (by simpa using ht)
          (fun x hx => by simpa using hpre x hx)
        refine Or.inl ?_
        simp only [todo_main.handle, h1]
        exact forall₂_split _ (fun a => ⟨rfl, fun h => h⟩) pre _ _ post ⟨rfl, fun _ => rfl⟩
    | delete id =>
      refine Or.inr (Or.inl ?_)
      cases hf : todo_main.rangeFind todos id with
      | none => simp [todo_main.handle, todo_main.deleteTodo, hf]
      | some i =>
        simp only [todo_main.handle, todo_main.deleteTodo, hf,
          ← List.eraseIdx_eq_take_drop_succ]
        exact List.eraseIdx_sublist todos i
  · intro db env req hreq
    cases req with
    | root => exact Or.inr (Or.inl (List.Sublist.refl _))
    | list =>
      refine Or.inr (Or.inl ?_)
      simp only [handle, getTodos_snd, Db.Find_snd]
      exact List.Sublist.refl _
    | create body =>
      refine Or.inr (Or.inr ?_)
      cases body with
      | none => exact ⟨[], (List.append_nil _).symm⟩
      | some q =>
        by_cases hb : (BodyParser_mongoo q).Body = ""
        · exact ⟨[], by simp [handle, createTodo, hb]⟩
        · simp only [handle, createTodo_snd db q env hb]
          exact Db.InsertOne_docs _ _ _ _
    | update idParam body =>
      rcases updateTodo_docs db idParam body env with h | ⟨o, set, hbody, h⟩
      · refine Or.inr (Or.inl ?_)
        simp only [handle, h]
        exact List.Sublist.refl _
      · refine Or.inl ?_
        simp only [handle, h]
        exact Db.UpdateOne_docs db o set (env.fails 0) (hreq idParam set (by rw [hbody]))
    | delete idParam =>
      exact Or.inr (Or.inl (deleteTodo_docs db idParam env))

/-- Instance of the amended C7: an update carrying a new `body` and
`completed: 1` leaves a completed Todo completed. -/
theorem completed_kept_witness :
    KeepsCompleted (fun d : Doc => List.lookup "_id" d) Doc.completed
      [[("_id", .oid 10), ("completed", .bool true), ("body", .str "a")]]
      (handle ⟨[[("_id", .oid 10), ("completed", .bool true), ("body", .str "a")]], []⟩
        ⟨1, 2, fun _ => false⟩
        (.update "00000000000000000000000a"
          (some [("body", .str "b"), ("completed", .num 1)]))).2.docs ∧
    (handle ⟨[[("_id", .oid 10), ("completed", .bool true), ("body", .str "a")]], []⟩
        ⟨1, 2, fun _ => false⟩
        (.update "00000000000000000000000a"
          (some [("body", .str "b"), ("completed", .num 1)]))).2.docs
      = [[("_id", .oid 10), ("completed", .num 1), ("body", .str "b")]] ∧
    Doc.completed [("_id", .oid 10), ("completed", .num 1), ("body", .str "b")] = true :=
  ⟨completed_kept.2 ⟨[[("_id", .oid 10), ("completed", .bool true), ("body", .str "a")]], []⟩
    ⟨1, 2, fun _ => false⟩
    (.update "00000000000000000000000a" (some [("body", .str "b"), ("completed", .num 1)]))
    (by
      intro idParam set h v hv
      injection h with _ h2
      injection h2 with h3
      subst h3
      simp at hv
      subst hv
      simp [decodeBool]),
    by decide, by simp [Doc.completed, decodeBool, List.lookup]⟩

/-! ## Identifier assignment -/

/-- C8: the id of a Todo is assigned by the server and does not change. In the
in-memory variant two creates whose payloads differ only in `id` give the same
response and the same store; a patch leaves the id of the record at every
position as it was, and a delete leaves a sublist of the records, each
unchanged. In the persistent variant `createTodo` does not depend on the
payload's id either, and with a non-empty body the one driver call it issues is
the insert of a document built from `primitive.NewObjectID()`. -/
theorem id_assigned_by_server :
    (∀ (todos : List Todo) (p : Payload) (x : Option Int),
      todo_main.postTodo todos (some { p with id := x }) = todo_main.postTodo todos (some p)) ∧
    (∀ (todos : List Todo) (id body : String),
      (todo_main.patchTodo todos id body).2.map (·.ID) = todos.map (·.ID)) ∧
    (∀ (todos : List Todo) (id : String),
      List.Sublist (todo_main.deleteTodo todos id).2 todos) ∧
    (∀ (db : Db) (q : Payload_mongoo) (x : Option ObjectID) (env : Env),
      createTodo db (some { q with id := x }) env = createTodo db (some q) env) ∧
    (∀ (db : Db) (q : Payload_mongoo) (env : Env), (BodyParser_mongoo q).Body ≠ "" →
      (createTodo db (some q) env).2.calls = db.calls ++
        [Call.InsertOne (Todo_mongoo.marshal
          { ID := env.newId, Completed := (BodyParser_mongoo q).Completed,
            Body := (BodyParser_mongoo q).Body })]) := by
  refine ⟨?_, ?_, ?_, ?_, ?_⟩
  · intro todos p x
    simp [todo_main.postTodo, BodyParser]
  · intro todos id body
    cases hf : todo_main.rangeFind todos id with
    | none => simp [todo_main.patchTodo, hf]
    | some i =>
      obtain ⟨pre, t, post, hl, hlen, ht, hpre⟩ := firstIndex_eq_some _ todos i hf
      subst hl
      have h1 := todo_main.patchTodo_split pre t post id body (by simpa using ht)
        (fun x hx => by simpa using hpre x hx)
      simp [h1]
  · intro todos id
    cases hf : todo_main.rangeFind todos id with
    | none => simp [todo_main.deleteTodo, hf]
    | some i =>
      simp only [todo_main.deleteTodo, hf, ← List.eraseIdx_eq_take_drop_succ]
      exact List.eraseIdx_sublist todos i
  · intro db q x env
    simp [createTodo, BodyParser_mongoo]
  · intro db q env hb
    rw [createTodo_snd db q env hb, Db.InsertOne_calls]

/-- Instance of C8: a create carrying `id` and a non-empty body. -/
theorem id_assigned_by_server_witness :
    (createTodo ⟨[], []⟩ (some ⟨some 5, none, some "x"⟩) ⟨1, 2, fun _ => false⟩).2.calls
      = (⟨[], []⟩ : Db).calls ++
        [Call.InsertOne (Todo_mongoo.marshal
          { ID := (⟨1, 2, fun _ => false⟩ : Env).newId,
            Completed := (BodyParser_mongoo ⟨some 5, none, some "x"⟩).Completed,
            Body := (BodyParser_mongoo ⟨some 5, none, some "x"⟩).Body })] ∧
    (createTodo ⟨[], []⟩ (some ⟨some 5, none, some "x"⟩) ⟨1, 2, fun _ => false⟩).2.docs
      = [[("_id", .oid 1), ("completed", .bool false), ("body", .str "x")]] :=
  ⟨id_assigned_by_server.2.2.2.2 ⟨[], []⟩ ⟨some 5, none, some "x"⟩ ⟨1, 2, fun _ => false⟩
    (by decide), by decide⟩

end TodoApi
